import Mathlib

/-!
Shallow embedding of the sg-bus-mcp-server core: the paginated fetch cache
(`fetchAllBusStops` / `getBusStops` from the mcp route), the bounded page scans of the
SSE route variants (`searchBusStops`, `getBusRoutes`), the JSON-RPC dispatcher
(`handleToolCall` / `handleMessage`), the two POST handlers, and the SSE connection
lifecycle (heartbeat timer plus abort listener).

Upstream HTTP is modelled as an environment: a function from a page offset to the
response the LTA API returns at that offset (either a non-success status or a list of
records).  String formatting of tool output, HTTP headers and the landing page are
outside every claim and are not modelled.
-/

namespace SgBusMcp

/-- Response of one upstream page request: a non-success HTTP status (the code then
throws) or the parsed `data.value` array.  A missing or null `value` is modelled as
the empty list, exactly the disjunction `!data.value || data.value.length === 0`
tested by the source. -/
inductive PageResp (α : Type) where
  | fail (status : Nat)
  | ok (records : List α)
deriving DecidableEq

/-- The upstream dataset as seen through pagination: the response returned for each
`$skip` offset.  Fixed for the duration of one modelled execution. -/
abbrev Upstream (α : Type) := Nat → PageResp α

/-- Outcome of the unbounded scan: finished with the accumulated records, aborted by a
throw on a non-success status, or out of fuel (the while-true loop models termination
only through the data, so the embedding carries explicit fuel). -/
inductive ScanOutcome (α : Type) where
  | done (records : List α)
  | err (status : Nat)
  | fuelOut
deriving DecidableEq

/-- Loop body of `fetchAllBusStops` (mcp route): request the page at `skip`; a
non-success status throws; an empty page breaks before appending; otherwise append,
advance `skip` by 500 and break if the page was shorter than 500. -/
def fetchAllBusStopsGo (u : Upstream α) : Nat → Nat → List α → ScanOutcome α
  | 0, _, _ => .fuelOut
  | fuel + 1, skip, acc =>
    match u skip with
    | .fail status => .err status
    | .ok page =>
      if page.length = 0 then .done acc
      else if page.length < 500 then .done (acc ++ page)
      else fetchAllBusStopsGo u fuel (skip + 500) (acc ++ page)

/-- `fetchAllBusStops` of the mcp route: unbounded page scan starting at offset 0 with
an empty accumulator. -/
def fetchAllBusStops (u : Upstream α) (fuel : Nat) : ScanOutcome α :=
  fetchAllBusStopsGo u fuel 0 []

/-- Bounded page scan shared by `searchBusStops` and `getBusStopInfo` in the SSE route
variants: `while (skip < maxSkip)` request the page, break on an empty page, otherwise
concatenate and advance by 500.  There is no shorter-than-page-size break.  A
non-success status throws (`.error`). -/
def boundedScanGo (u : Upstream α) (maxSkip : Nat) (skip : Nat) (acc : List α) :
    Except Nat (List α) :=
  if _h : skip < maxSkip then
    match u skip with
    | .fail status => .error status
    | .ok page =>
      if page.length = 0 then .ok acc
      else boundedScanGo u maxSkip (skip + 500) (acc ++ page)
  else .ok acc
termination_by maxSkip - skip
decreasing_by omega

/-- The pagination part of `searchBusStops` in the SSE route variants: bounded scan up
to offset 6000. -/
def searchBusStopsScan (u : Upstream α) : Except Nat (List α) :=
  boundedScanGo u 6000 0 []

/-- One record of the BusRoutes dataset, reduced to the fields the scans inspect
(`ServiceNo` for filtering) plus the stop code to tell records apart. -/
structure RouteRec where
  serviceNo : String
  busStopCode : String
deriving DecidableEq

/-- Loop of `getBusRoutes` in the SSE route variants and the mcp-handler route:
`while (skip < 5000)` request the page, break on an empty page, filter the page by
`ServiceNo`, concatenate the matches, advance by 500, and break when the accumulator
is non-empty while the current page contributed zero matches (the gap heuristic). -/
def getBusRoutesScanGo (u : Upstream RouteRec) (serviceNo : String) (skip : Nat)
    (allRoutes : List RouteRec) : Except Nat (List RouteRec) :=
  if _h : skip < 5000 then
    match u skip with
    | .fail status => .error status
    | .ok page =>
      if page.length = 0 then .ok allRoutes
      else
        let serviceRoutes := page.filter (fun r => r.serviceNo == serviceNo)
        let allRoutes' := allRoutes ++ serviceRoutes
        if allRoutes'.length > 0 ∧ serviceRoutes.length = 0 then .ok allRoutes'
        else getBusRoutesScanGo u serviceNo (skip + 500) allRoutes'
  else .ok allRoutes
termination_by 5000 - skip
decreasing_by omega

/-- `getBusRoutes` page scan entry point: offset 0, empty accumulator. -/
def getBusRoutesScan (u : Upstream RouteRec) (serviceNo : String) :
    Except Nat (List RouteRec) :=
  getBusRoutesScanGo u serviceNo 0 []

/-- `CACHE_DURATION = 24 * 60 * 60 * 1000` milliseconds from the mcp route. -/
def CACHE_DURATION : Int := 24 * 60 * 60 * 1000

/-- The module-level cache of the mcp route: `busStopsCache` starts as `null`
(modelled `none`; a successfully fetched array, even an empty one, is truthy and is
modelled `some`), `busStopsCacheTime` starts at 0. -/
structure CacheState (α : Type) where
  busStopsCache : Option (List α)
  busStopsCacheTime : Int
deriving DecidableEq

/-- `getBusStops` of the mcp route as a single sequential call.  `now` is the
`Date.now()` read at entry; `refreshOutcome` is the outcome of the awaited
`fetchAllBusStops()` call (consulted only on a cache miss).  Returns the payload
handed to the caller, the cache state afterwards, and whether a refresh was attempted
(whether the upstream was contacted).  The catch branch is `return busStopsCache || []`:
it never rethrows. -/
def getBusStops (st : CacheState α) (now : Int) (refreshOutcome : Except Nat (List α)) :
    List α × CacheState α × Bool :=
  if st.busStopsCache.isSome ∧ now - st.busStopsCacheTime < CACHE_DURATION then
    (st.busStopsCache.getD [], st, false)
  else
    match refreshOutcome with
    | .ok v => (v, ⟨some v, now⟩, true)
    | .error _ => (st.busStopsCache.getD [], st, true)

/-- State of one in-flight `getBusStops()` invocation, sliced at its await points:
`start now` is a call that has read `Date.now()` but not yet inspected the cache;
`fetching now skip acc` is suspended inside `fetchAllBusStops` awaiting the page at
`skip` with the local accumulator `acc`; `ret v` has returned `v`. -/
inductive TaskState (α : Type) where
  | start (now : Int)
  | fetching (now : Int) (skip : Nat) (acc : List α)
  | ret (retVal : List α)

/-- Shared state of the mcp route module plus the set of concurrent `getBusStops`
invocations.  `refreshesStarted` counts how many times an invocation has entered
`fetchAllBusStops` (instrumentation for the stampede claims). -/
structure SysState (α : Type) where
  busStopsCache : Option (List α)
  busStopsCacheTime : Int
  tasks : Nat → TaskState α
  refreshesStarted : Nat

/-- Pointwise update of the task table. -/
def updateTask (tasks : Nat → TaskState α) (i : Nat) (t : TaskState α) :
    Nat → TaskState α :=
  fun j => if j = i then t else tasks j

/-- One scheduler step of task `i`, running the JS code synchronously up to the next
await.  A `start` task checks the cache (a hit returns it; a miss enters
`fetchAllBusStops` and suspends at the first page fetch).  A `fetching` task receives
its page response: a non-success status propagates to the catch, which returns the
current `busStopsCache || []`; an empty or short page completes the scan, assigning
the completed accumulator and the captured `now` to the shared cache; a full page
appends locally and suspends at the next offset. -/
def taskStep (u : Upstream α) (s : SysState α) (i : Nat) : SysState α :=
  match s.tasks i with
  | .ret _ => s
  | .start now =>
    if s.busStopsCache.isSome ∧ now - s.busStopsCacheTime < CACHE_DURATION then
      { s with tasks := updateTask s.tasks i (.ret (s.busStopsCache.getD [])) }
    else
      { s with tasks := updateTask s.tasks i (.fetching now 0 []),
               refreshesStarted := s.refreshesStarted + 1 }
  | .fetching now skip acc =>
    match u skip with
    | .fail _ =>
      { s with tasks := updateTask s.tasks i (.ret (s.busStopsCache.getD [])) }
    | .ok page =>
      if page.length = 0 then
        { s with busStopsCache := some acc, busStopsCacheTime := now,
                 tasks := updateTask s.tasks i (.ret acc) }
      else if page.length < 500 then
        { s with busStopsCache := some (acc ++ page), busStopsCacheTime := now,
                 tasks := updateTask s.tasks i (.ret (acc ++ page)) }
      else
        { s with tasks := updateTask s.tasks i (.fetching now (skip + 500) (acc ++ page)) }

/-- Run a schedule: at each step the named task advances to its next await. -/
def runSys (u : Upstream α) (s : SysState α) (sched : List Nat) : SysState α :=
  sched.foldl (taskStep u) s

/-- Initial system state: cold cache (`busStopsCache = null`, time 0) and a pool of
`getBusStops` invocations, the `j`-th having read `Date.now() = times j`. -/
def initSys (α : Type) (times : Nat → Int) : SysState α :=
  ⟨none, 0, fun j => .start (times j), 0⟩

/-- `acc` is the concatenation of the pages at offsets 0, 500, ..., 500 * (k - 1),
each returned with success, non-empty and not shorter than the page size — the loop
states of `fetchAllBusStops` from which the scan continues. -/
def FullPages (u : Upstream α) : Nat → List α → Prop
  | 0, acc => acc = []
  | k + 1, acc => ∃ acc' page, FullPages u k acc' ∧ u (500 * k) = .ok page ∧
      page ≠ [] ∧ ¬ page.length < 500 ∧ acc = acc' ++ page

/-- `v` is the value of a finished full-page scan of `u`: the concatenation of full
pages up to some offset whose page is empty, or of full pages followed by one final
non-empty page shorter than the page size. -/
def CompleteScan (u : Upstream α) (v : List α) : Prop :=
  ∃ k acc, FullPages u k acc ∧
    ((u (500 * k) = .ok [] ∧ v = acc) ∨
      ∃ page, u (500 * k) = .ok page ∧ page ≠ [] ∧ page.length < 500 ∧ v = acc ++ page)

/-- `acc` is the concatenation of the pages at offsets 0, 500, ..., 500 * (k - 1),
each returned with success and non-empty (the loop states of the bounded scans, which
continue past short pages). -/
def NonemptyPages (u : Upstream α) : Nat → List α → Prop
  | 0, acc => acc = []
  | k + 1, acc => ∃ acc' page, NonemptyPages u k acc' ∧ u (500 * k) = .ok page ∧
      page ≠ [] ∧ acc = acc' ++ page

/-- Invariant of the interleaved cache model: the shared cache holds only values of
finished full-page scans, and every invocation suspended inside `fetchAllBusStops`
carries an offset that is a multiple of 500 together with the accumulation of the
full pages before it. -/
def SysInv (u : Upstream α) (s : SysState α) : Prop :=
  (∀ v, s.busStopsCache = some v → CompleteScan u v) ∧
  (∀ i now skip acc, s.tasks i = .fetching now skip acc →
    ∃ k, skip = 500 * k ∧ FullPages u k acc)

/-- One decoded JSON-RPC message.  `id = none` models an absent `id` field (a
notification).  `paramsName` models `params.name`, read only by `tools/call`;
`params.arguments` is folded into the tool-behaviour environment. -/
structure RpcMessage where
  method : String
  id : Option Nat
  paramsName : String
deriving DecidableEq

/-- The `result` payloads the dispatcher produces: the constant `initialize`
handshake object, the static tools array, or a wrapped textual tool result
(`content: [ text ]`). -/
inductive RpcResult where
  | initRes
  | toolsListRes
  | toolCallRes (text : String)
deriving DecidableEq

/-- A JSON-RPC response: success envelope or error envelope, each echoing the
request id (absent when the request had none). -/
inductive RpcResponse where
  | result (id : Option Nat) (res : RpcResult)
  | rpcError (id : Option Nat) (code : Int) (message : String)
deriving DecidableEq

/-- Behaviour of the four registered tool handlers on this call's arguments:
`.ok text` when the handler returns `text`, `.error msg` when it throws `msg`. -/
abbrev ToolImpl := String → Except String String

/-- The tool names registered in all route variants. -/
def registeredToolNames : List String :=
  ["get_bus_arrivals", "search_bus_stops", "get_bus_stop_info", "get_bus_routes"]

/-- `handleToolCall`: switch on the requested name; the four registered names invoke
their handlers; the default branch returns the text `Unknown tool: <name>` without
touching any handler and without throwing. -/
def handleToolCall (impl : ToolImpl) (name : String) : Except String String :=
  match name with
  | "get_bus_arrivals" => impl "get_bus_arrivals"
  | "search_bus_stops" => impl "search_bus_stops"
  | "get_bus_stop_info" => impl "get_bus_stop_info"
  | "get_bus_routes" => impl "get_bus_routes"
  | _ => .ok ("Unknown tool: " ++ name)

/-- `handleMessage`: route on `method`.  `initialize` and `tools/list` return constant
results; `initialized` returns `null` (no response); `tools/call` wraps the tool text
as a success result and maps a thrown handler error to a `-32000` error envelope;
every other method yields a `-32601` error.  Identical in the mcp route and both SSE
route variants. -/
def handleMessage (impl : ToolImpl) (msg : RpcMessage) : Option RpcResponse :=
  match msg.method with
  | "initialize" => some (.result msg.id .initRes)
  | "initialized" => none
  | "tools/list" => some (.result msg.id .toolsListRes)
  | "tools/call" =>
    match handleToolCall impl msg.paramsName with
    | .ok text => some (.result msg.id (.toolCallRes text))
    | .error e => some (.rpcError msg.id (-32000) e)
  | other => some (.rpcError msg.id (-32601) ("Method not found: " ++ other))

/-- Bodies the POST handlers serialize: a JSON-RPC response, the acknowledgement
object with `success: true`, the catch-branch JSON-RPC error envelope whose id is the
JSON null literal, or a bare object with a single `error` string field. -/
inductive PostBody where
  | rpcBody (r : RpcResponse)
  | ackBody
  | parseErrBody (code : Int) (message : String)
  | plainErrBody (message : String)
deriving DecidableEq

/-- An HTTP response, reduced to status and body (headers are constant). -/
structure HttpResponse where
  status : Nat
  body : PostBody
deriving DecidableEq

/-- Frames the SSE transport can emit on one connection. -/
inductive SseFrame where
  | endpointFrame
  | heartbeatFrame
  | messageFrame (r : RpcResponse)
deriving DecidableEq

/-- The stateless POST handler (mcp route and the direct-response SSE variant):
a body that fails JSON decoding is caught and answered with status 200 and the
JSON-RPC error envelope (code -32000, id null); a decoded message is dispatched, the
response returned as the body, and a null dispatch result acknowledged with
`success: true`. -/
def POSTStateless (impl : ToolImpl) (body : Except String RpcMessage) : HttpResponse :=
  match body with
  | .error e => ⟨200, .parseErrBody (-32000) e⟩
  | .ok msg =>
    match handleMessage impl msg with
    | some r => ⟨200, .rpcBody r⟩
    | none => ⟨200, .ackBody⟩

/-- The session-routed POST handler (first SSE variant): missing `sessionId` is 400,
unknown session is 404; then a body that fails JSON decoding is caught and answered
with status 500 and a bare error object; a decoded message is dispatched, a non-null
response pushed to the session's stream as a `message` event, and the POST answers
`success: true`.  The second component lists the frames pushed to the session. -/
def POSTSession (impl : ToolImpl) (sessions : List String) (sessionId : Option String)
    (body : Except String RpcMessage) : HttpResponse × List SseFrame :=
  match sessionId with
  | none => (⟨400, .plainErrBody "Missing sessionId"⟩, [])
  | some sid =>
    if sessions.contains sid then
      match body with
      | .error _ => (⟨500, .plainErrBody "Failed to process message"⟩, [])
      | .ok msg =>
        match handleMessage impl msg with
        | some r => (⟨200, .ackBody⟩, [.messageFrame r])
        | none => (⟨200, .ackBody⟩, [])
    else (⟨404, .plainErrBody "Session not found"⟩, [])

/-- Observable state of one SSE connection: whether the heartbeat interval is still
armed, whether the session id is still in the `sessions` registry (session variant
only), whether `controller.close()` has been called, and the frames emitted so far. -/
structure ConnState where
  heartbeatActive : Bool
  inRegistry : Bool
  streamClosed : Bool
  frames : List SseFrame

/-- Events on one connection: a heartbeat interval firing (`enqueueOk` tells whether
`controller.enqueue` succeeds or throws), or the request's abort signal. -/
inductive ConnEvent where
  | tick (enqueueOk : Bool)
  | abortSignal

/-- Connection step of the session-routed SSE variant: a tick with the interval armed
either emits a heartbeat comment frame or, when enqueue throws, clears the interval
and deletes the session; a cleared interval no longer ticks.  The abort listener runs
`clearInterval` and `sessions.delete` — it does not close the stream. -/
def stepSession (s : ConnState) (e : ConnEvent) : ConnState :=
  match e with
  | .tick enqueueOk =>
    if s.heartbeatActive then
      if enqueueOk then { s with frames := s.frames ++ [.heartbeatFrame] }
      else { s with heartbeatActive := false, inRegistry := false }
    else s
  | .abortSignal => { s with heartbeatActive := false, inRegistry := false }

/-- Connection step of the stateless SSE variant (no registry): a failing enqueue
only clears the interval; the abort listener runs `clearInterval` and
`controller.close()` (the close is wrapped in try, so closing twice is harmless). -/
def stepStateless (s : ConnState) (e : ConnEvent) : ConnState :=
  match e with
  | .tick enqueueOk =>
    if s.heartbeatActive then
      if enqueueOk then { s with frames := s.frames ++ [.heartbeatFrame] }
      else { s with heartbeatActive := false }
    else s
  | .abortSignal => { s with heartbeatActive := false, streamClosed := true }

/-- Run a sequence of connection events under the given step function. -/
def runConn (step : ConnState → ConnEvent → ConnState) (s : ConnState)
    (evs : List ConnEvent) : ConnState :=
  evs.foldl step s

/-- Connection state right after the session-variant GET handler's `start` callback:
session registered, endpoint event emitted, interval armed. -/
def connOpenSession : ConnState :=
  ⟨true, true, false, [.endpointFrame]⟩

/-- Connection state right after the stateless-variant GET handler's `start`
callback: endpoint event plus an initial heartbeat comment emitted, interval armed
(this variant keeps no registry). -/
def connOpenStateless : ConnState :=
  ⟨true, false, false, [.endpointFrame, .heartbeatFrame]⟩

/-- Tool environment in which every registered handler returns the empty text. -/
def implOk : ToolImpl := fun _ => .ok ""

/-- Concrete upstream: a one-record page (shorter than the page size 500) at offset
0, a non-success status at offset 500, empty pages beyond. -/
def uShort : Upstream Nat := fun skip =>
  if skip = 0 then .ok [42]
  else if skip = 500 then .fail 503 else .ok []

/-- Concrete upstream whose every page is empty. -/
def uEmpty : Upstream Nat := fun _ => .ok []

/-- Concrete upstream that fails every page request. -/
def uFail : Upstream Nat := fun _ => .fail 500

/-- Concrete BusRoutes upstream: a record of service 15 at offset 0, a page with
only service 7 at offset 500, a further record of service 15 at offset 1000. -/
def uGap : Upstream RouteRec := fun skip =>
  if skip = 0 then .ok [⟨"15", "A"⟩]
  else if skip = 500 then .ok [⟨"7", "B"⟩]
  else if skip = 1000 then .ok [⟨"15", "C"⟩]
  else .ok []

/-!  Theorems.  Each claim of the specification is settled by exactly one named
theorem below; helper lemmas are shared. -/

/-- C1, counterexample: with a cold cache (`busStopsCache = null`) and a failing
refresh, `getBusStops` returns normally with the empty array and leaves the cache
empty — no error reaches the caller, refuting the claimed propagation of an
`UpstreamError`. -/
theorem getBusStops_coldFailure_returnsEmptyList :
    getBusStops (⟨none, 0⟩ : CacheState Nat) 0 (.error 500) = ([], ⟨none, 0⟩, true) := by
  rfl

/-- C1 (amended): when the refresh fails, `getBusStops` returns the previously
cached payload unchanged (and leaves the cache state untouched) whenever one exists;
when no payload was ever cached it returns the empty array — the catch branch
`return busStopsCache || []` — rather than propagating an error. -/
theorem getBusStops_failurePolicy (st : CacheState α) (now : Int) (status : Nat) :
    (∀ c, st.busStopsCache = some c →
      (getBusStops st now (.error status)).1 = c ∧
      (getBusStops st now (.error status)).2.1 = st) ∧
    (st.busStopsCache = none →
      getBusStops st now (.error status) = ([], st, true)) := by
  constructor
  · intro c hc
    unfold getBusStops
    rw [hc]
    split
    · exact ⟨rfl, rfl⟩
    · exact ⟨rfl, rfl⟩
  · intro hc
    unfold getBusStops
    rw [hc]
    simp

/-- Witness for C1's theorem: a stale payload survives a failed refresh. -/
theorem getBusStops_failurePolicy_witness :
    (getBusStops (⟨some [7], 0⟩ : CacheState Nat) 86400000 (.error 9)).1 = [7] :=
  ((getBusStops_failurePolicy _ _ _).1 [7] rfl).1

/-- C4: `getBusStops` answers from the cache without contacting the upstream exactly
when a cached payload exists and `now - busStopsCacheTime < CACHE_DURATION` (24 hours
in milliseconds); in that case the cached payload is returned unchanged, and in every
other case a refresh is performed. -/
theorem getBusStops_ttl (st : CacheState α) (now : Int) (r : Except Nat (List α)) :
    ((getBusStops st now r).2.2 = false ↔
      st.busStopsCache.isSome ∧ now - st.busStopsCacheTime < CACHE_DURATION) ∧
    (∀ c, st.busStopsCache = some c → now - st.busStopsCacheTime < CACHE_DURATION →
      getBusStops st now r = (c, st, false)) := by
  constructor
  · unfold getBusStops
    split
    case isTrue h => exact iff_of_true rfl h
    case isFalse h =>
      cases r
      · exact iff_of_false (by simp) h
      · exact iff_of_false (by simp) h
  · intro c hc hlt
    unfold getBusStops
    rw [hc]
    rw [if_pos ⟨rfl, hlt⟩]
    rfl

/-- Witness for C4's theorem: a fresh cache is served without a refresh. -/
theorem getBusStops_ttl_witness :
    getBusStops (⟨some [3], 0⟩ : CacheState Nat) 1 (.error 7) =
      ([3], ⟨some [3], 0⟩, false) :=
  (getBusStops_ttl _ _ _).2 [3] rfl (by decide)

/-- The default branch of the tool-call switch: an unregistered name produces the
`Unknown tool` text without invoking any handler and without throwing. -/
theorem handleToolCall_unregistered (impl : ToolImpl) (name : String)
    (hn : name ∉ registeredToolNames) :
    handleToolCall impl name = .ok ("Unknown tool: " ++ name) := by
  simp only [registeredToolNames, List.mem_cons, List.not_mem_nil, or_false, not_or] at hn
  obtain ⟨h1, h2, h3, h4⟩ := hn
  unfold handleToolCall
  split <;> simp_all

/-- C6: a `tools/call` whose `params.name` is none of the registered tool names is
answered with a JSON-RPC success response whose content text is
`Unknown tool: <name>`, never with an error envelope. -/
theorem toolsCall_unknownTool (impl : ToolImpl) (msg : RpcMessage)
    (hm : msg.method = "tools/call") (hn : msg.paramsName ∉ registeredToolNames) :
    handleMessage impl msg =
      some (.result msg.id (.toolCallRes ("Unknown tool: " ++ msg.paramsName))) := by
  obtain ⟨m, i, p⟩ := msg
  simp only at hm hn ⊢
  subst hm
  have hstep : handleMessage impl ⟨"tools/call", i, p⟩ =
      (match handleToolCall impl p with
        | .ok text => some (.result i (.toolCallRes text))
        | .error e => some (.rpcError i (-32000) e)) := rfl
  rw [hstep, handleToolCall_unregistered impl p hn]

/-- Witness for C6's theorem at the unregistered name `foo`. -/
theorem toolsCall_unknownTool_witness :
    handleMessage implOk ⟨"tools/call", some 1, "foo"⟩ =
      some (.result (some 1) (.toolCallRes ("Unknown tool: " ++ "foo"))) :=
  toolsCall_unknownTool implOk ⟨"tools/call", some 1, "foo"⟩ rfl (by decide)

/-- C7, counterexample: the id-less message with method `tools/list` (a notification
by the claim's definition) is answered: the dispatcher produces a response, the
session-routed POST pushes it as an SSE `message` event, and the stateless POST
returns it as the response body — refuting that no response is ever produced for a
message without an id. -/
theorem notification_toolsList_isAnswered :
    handleMessage implOk ⟨"tools/list", none, ""⟩ = some (.result none .toolsListRes) ∧
    POSTSession implOk ["s1"] (some "s1") (.ok ⟨"tools/list", none, ""⟩) =
      (⟨200, .ackBody⟩, [.messageFrame (.result none .toolsListRes)]) ∧
    POSTStateless implOk (.ok ⟨"tools/list", none, ""⟩) =
      ⟨200, .rpcBody (.result none .toolsListRes)⟩ :=
  ⟨rfl, rfl, rfl⟩

/-- C7 (amended): the dispatcher produces no response exactly for method
`initialized`; a message carrying no id but any other method is processed like a
request and answered (the response then echoes the absent id). -/
theorem handleMessage_none_iff (impl : ToolImpl) (msg : RpcMessage) :
    handleMessage impl msg = none ↔ msg.method = "initialized" := by
  obtain ⟨m, i, p⟩ := msg
  simp only
  unfold handleMessage
  split
  case h_1 heq => exact iff_of_false (by simp) (by simp_all)
  case h_2 heq => exact iff_of_true rfl (by simp_all)
  case h_3 heq => exact iff_of_false (by simp) (by simp_all)
  case h_4 heq =>
    refine iff_of_false ?_ (by simp_all)
    cases handleToolCall impl p <;> simp
  case h_5 x h1 h2 h3 h4 =>
    exact iff_of_false (by simp) h2

/-- C8, counterexample: in the session-routed SSE variant, a POST with a known
session and a body that fails JSON decoding is answered with HTTP status 500 and the
bare body `error: Failed to process message` — not with status 200 and not with a
JSON-RPC envelope — refuting the claim for that POST handler. -/
theorem postSession_malformedBody_500 :
    POSTSession implOk ["s1"] (some "s1") (.error "Unexpected token") =
      (⟨500, .plainErrBody "Failed to process message"⟩, []) :=
  rfl

/-- C8 (amended): a malformed POST body is answered with HTTP 200 and the JSON-RPC
error envelope of code -32000 and null id by the stateless POST handlers (mcp route
and direct-response SSE variant), but with HTTP 500 and a bare error object by the
session-routed SSE variant (after its 400 missing-session and 404 unknown-session
checks). -/
theorem post_malformedBody (impl : ToolImpl) (e : String) :
    (POSTStateless impl (.error e) = ⟨200, .parseErrBody (-32000) e⟩) ∧
    (∀ (sessions : List String) (sid : String), sessions.contains sid = true →
      POSTSession impl sessions (some sid) (.error e) =
        (⟨500, .plainErrBody "Failed to process message"⟩, [])) := by
  refine ⟨rfl, ?_⟩
  intro sessions sid h
  have hm : sid ∈ sessions := by simpa using h
  simp [POSTSession, hm]

/-- Witness for C8's theorem: the session-routed branch at a concrete session. -/
theorem post_malformedBody_witness :
    POSTSession implOk ["a"] (some "a") (.error "bad") =
      (⟨500, .plainErrBody "Failed to process message"⟩, []) :=
  (post_malformedBody implOk "bad").2 ["a"] "a" rfl

/-- After the heartbeat interval is cleared, a session-variant connection emits no
further frames and the interval stays cleared. -/
theorem stepSession_inactive (s : ConnState) (e : ConnEvent)
    (h : s.heartbeatActive = false) :
    (stepSession s e).frames = s.frames ∧ (stepSession s e).heartbeatActive = false := by
  cases e <;> simp [stepSession, h]

/-- After the heartbeat interval is cleared, a stateless-variant connection emits no
further frames and the interval stays cleared. -/
theorem stepStateless_inactive (s : ConnState) (e : ConnEvent)
    (h : s.heartbeatActive = false) :
    (stepStateless s e).frames = s.frames ∧
      (stepStateless s e).heartbeatActive = false := by
  cases e <;> simp [stepStateless, h]

/-- Frames are stable under any event sequence once the interval is cleared
(session variant). -/
theorem runConn_session_inactive (s : ConnState) (evs : List ConnEvent)
    (h : s.heartbeatActive = false) :
    (runConn stepSession s evs).frames = s.frames := by
  induction evs generalizing s with
  | nil => rfl
  | cons e evs ih =>
    have hs := stepSession_inactive s e h
    simpa [runConn, List.foldl_cons, hs.1] using ih (stepSession s e) hs.2

/-- Frames are stable under any event sequence once the interval is cleared
(stateless variant). -/
theorem runConn_stateless_inactive (s : ConnState) (evs : List ConnEvent)
    (h : s.heartbeatActive = false) :
    (runConn stepStateless s evs).frames = s.frames := by
  induction evs generalizing s with
  | nil => rfl
  | cons e evs ih =>
    have hs := stepStateless_inactive s e h
    simpa [runConn, List.foldl_cons, hs.1] using ih (stepStateless s e) hs.2

/-- C9, counterexample: in the session-routed variant, firing the abort signal on a
freshly opened connection cancels the heartbeat and removes the session but leaves
`streamClosed` false — the abort listener never calls `controller.close()` — refuting
the claimed close-the-stream step of the cleanup. -/
theorem sessionAbort_leavesStreamOpen :
    stepSession connOpenSession .abortSignal =
      ⟨false, false, false, [.endpointFrame]⟩ :=
  rfl

/-- C9 (amended): on the abort signal the session variant cancels the heartbeat and
removes the session (without closing the stream) and the stateless variant cancels
the heartbeat and closes the stream (it keeps no registry); the cleanup is
idempotent — a second abort, or an abort after a heartbeat-failure cleanup, changes
nothing — and no frame is ever emitted after it. -/
theorem abortCleanup :
    (∀ s : ConnState, stepSession s .abortSignal =
        { s with heartbeatActive := false, inRegistry := false }) ∧
    (∀ s : ConnState, stepStateless s .abortSignal =
        { s with heartbeatActive := false, streamClosed := true }) ∧
    (∀ s : ConnState, stepSession (stepSession s .abortSignal) .abortSignal =
        stepSession s .abortSignal) ∧
    (∀ s : ConnState, stepStateless (stepStateless s .abortSignal) .abortSignal =
        stepStateless s .abortSignal) ∧
    (∀ s : ConnState, s.heartbeatActive = true →
        stepSession (stepSession s (.tick false)) .abortSignal =
          stepSession s (.tick false)) ∧
    (∀ (s : ConnState) (evs : List ConnEvent),
        (runConn stepSession (stepSession s .abortSignal) evs).frames = s.frames) ∧
    (∀ (s : ConnState) (evs : List ConnEvent),
        (runConn stepStateless (stepStateless s .abortSignal) evs).frames = s.frames) := by
  refine ⟨fun s => rfl, fun s => rfl, fun s => rfl, fun s => rfl, ?_, ?_, ?_⟩
  · intro s h
    cases s
    simp_all [stepSession]
  · intro s evs
    exact runConn_session_inactive _ evs rfl
  · intro s evs
    exact runConn_stateless_inactive _ evs rfl

/-- Witness for C9's theorem: heartbeat-failure cleanup followed by the abort signal
on a freshly opened session connection changes nothing further. -/
theorem abortCleanup_witness :
    stepSession (stepSession connOpenSession (.tick false)) .abortSignal =
      stepSession connOpenSession (.tick false) :=
  abortCleanup.2.2.2.2.1 connOpenSession rfl

/-- C10: the gap heuristic of `getBusRoutes`.  First conjunct: whenever some
matching route has already been accumulated and the current (non-empty, successful)
page contributes zero records for the requested service, the scan stops at once and
returns the accumulator.  Second conjunct: a concrete page sequence in which service
15 reappears at offset 1000 after a matchless page at offset 500 — the scan returns
only the offset-0 record, omitting the later one although the 5000 offset bound was
never reached. -/
theorem getBusRoutes_gapBreak :
    (∀ (u : Upstream RouteRec) (svc : String) (skip : Nat) (acc page : List RouteRec),
        skip < 5000 → u skip = .ok page → page.length ≠ 0 →
        page.filter (fun r => r.serviceNo == svc) = [] → acc ≠ [] →
        getBusRoutesScanGo u svc skip acc = .ok acc) ∧
    (getBusRoutesScan uGap "15" = .ok [⟨"15", "A"⟩] ∧
      uGap 1000 = .ok [⟨"15", "C"⟩] ∧
      (⟨"15", "C"⟩ : RouteRec) ∉ ([⟨"15", "A"⟩] : List RouteRec) ∧
      (1000 : Nat) < 5000) := by
  constructor
  · intro u svc skip acc page hlt hu hne hfil hacc
    unfold getBusRoutesScanGo
    rw [dif_pos hlt, hu]
    simp [hne, hfil, List.length_pos, hacc]
  · refine ⟨?_, rfl, by decide, by decide⟩
    simp [getBusRoutesScan, getBusRoutesScanGo, uGap]

/-- Witness for C10's theorem: the break rule applied at offset 500 of the concrete
upstream. -/
theorem getBusRoutes_gapBreak_witness :
    getBusRoutesScanGo uGap "15" 500 [⟨"15", "A"⟩] = .ok [⟨"15", "A"⟩] :=
  getBusRoutes_gapBreak.1 uGap "15" 500 [⟨"15", "A"⟩] [⟨"7", "B"⟩] (by decide) rfl
    (by decide) (by decide) (by decide)

/-- C3, counterexample: two concurrent `getBusStops` calls on a cold cache, in the
interleaving where both cache checks run before either refresh resolves: both calls
enter `fetchAllBusStops`, so two refresh sequences are started and are in flight at
the same time. -/
theorem coldCache_twoParallelRefreshes :
    (runSys uEmpty (initSys Nat (fun _ => 0)) [0, 1]).refreshesStarted = 2 ∧
    (runSys uEmpty (initSys Nat (fun _ => 0)) [0, 1]).tasks 0 = .fetching 0 0 [] ∧
    (runSys uEmpty (initSys Nat (fun _ => 0)) [0, 1]).tasks 1 = .fetching 0 0 [] :=
  ⟨rfl, rfl, rfl⟩

/-- C3 (amended): the source has no stampede prevention: every caller that finds the
cache cold enters its own `fetchAllBusStops`, so for every upstream and every pair of
call times, two cold callers scheduled before either refresh resolves start two
parallel refreshes. -/
theorem coldCache_noStampedePrevention (u : Upstream α) (t0 t1 : Int) :
    (runSys u (initSys α (fun j => if j = 0 then t0 else t1))
        [0, 1]).refreshesStarted = 2 := by
  rfl

/-- Task-table updates preserve the suspended-scan invariant when the written task
satisfies it. -/
theorem tasksOK_update (u : Upstream α) (tasks : Nat → TaskState α) (i : Nat)
    (t : TaskState α)
    (hT : ∀ j now skip acc, tasks j = .fetching now skip acc →
      ∃ k, skip = 500 * k ∧ FullPages u k acc)
    (hnew : ∀ now skip acc, t = .fetching now skip acc →
      ∃ k, skip = 500 * k ∧ FullPages u k acc) :
    ∀ j now skip acc, updateTask tasks i t j = .fetching now skip acc →
      ∃ k, skip = 500 * k ∧ FullPages u k acc := by
  intro j now skip acc hj
  unfold updateTask at hj
  split at hj
  · exact hnew _ _ _ hj
  · exact hT _ _ _ _ hj

/-- One scheduler step preserves the cache invariant. -/
theorem sysInv_step (u : Upstream α) (s : SysState α) (i : Nat) (h : SysInv u s) :
    SysInv u (taskStep u s i) := by
  obtain ⟨hc, ht⟩ := h
  have hnoRet : ∀ (v : List α) (now : Int) (skip : Nat) (acc : List α),
      (TaskState.ret v : TaskState α) = TaskState.fetching now skip acc →
      ∃ k, skip = 500 * k ∧ FullPages u k acc :=
    fun _ _ _ _ hcontra => TaskState.noConfusion hcontra
  cases hti : s.tasks i with
  | ret v =>
    simpa only [taskStep, hti] using And.intro hc ht
  | start now =>
    simp only [taskStep, hti]
    split
    · exact ⟨hc, tasksOK_update u s.tasks i _ ht (hnoRet _)⟩
    · refine ⟨hc, tasksOK_update u s.tasks i _ ht ?_⟩
      intro now' skip acc heq
      injection heq with h1 h2 h3
      subst h2; subst h3
      exact ⟨0, rfl, rfl⟩
  | fetching now skip acc =>
    obtain ⟨k, hsk, hfp⟩ := ht i now skip acc hti
    cases hu : u skip with
    | fail status =>
      simp only [taskStep, hti, hu]
      exact ⟨hc, tasksOK_update u s.tasks i _ ht (hnoRet _)⟩
    | ok page =>
      simp only [taskStep, hti, hu]
      by_cases hz : page.length = 0
      · rw [if_pos hz]
        refine ⟨?_, tasksOK_update u s.tasks i _ ht (hnoRet _)⟩
        intro v hv
        injection hv with hv
        subst hv
        refine ⟨k, acc, hfp, Or.inl ⟨?_, rfl⟩⟩
        rw [← hsk, hu, List.length_eq_zero.mp hz]
      · rw [if_neg hz]
        by_cases hsh : page.length < 500
        · rw [if_pos hsh]
          refine ⟨?_, tasksOK_update u s.tasks i _ ht (hnoRet _)⟩
          intro v hv
          injection hv with hv
          subst hv
          refine ⟨k, acc, hfp, Or.inr ⟨page, ?_, ?_, hsh, rfl⟩⟩
          · rw [← hsk, hu]
          · exact fun hnil => hz (by rw [hnil]; rfl)
        · rw [if_neg hsh]
          refine ⟨hc, tasksOK_update u s.tasks i _ ht ?_⟩
          intro now' skip' acc' hraw
          injection hraw with h1 h2 h3
          subst h2; subst h3
          refine ⟨k + 1, by omega, acc, page, hfp, ?_, ?_, hsh, rfl⟩
          · rw [← hsk, hu]
          · exact fun hnil => hz (by rw [hnil]; rfl)

/-- Every schedule preserves the cache invariant. -/
theorem sysInv_run (u : Upstream α) (s : SysState α) (sched : List Nat)
    (h : SysInv u s) : SysInv u (runSys u s sched) := by
  induction sched generalizing s with
  | nil => exact h
  | cons i rest ih => exact ih _ (sysInv_step u s i h)

/-- The cold initial state satisfies the cache invariant. -/
theorem sysInv_init (u : Upstream α) (times : Nat → Int) :
    SysInv u (initSys α times) := by
  constructor
  · intro v hv
    exact Option.noConfusion hv
  · intro i now skip acc h
    exact TaskState.noConfusion h

/-- C5: in every reachable state of every interleaved execution (any upstream, any
pool of `getBusStops` invocations, any schedule), `busStopsCache` is either still
absent or the value of a finished full-page scan of the upstream — never the partial
accumulation of an unfinished or aborted refresh. -/
theorem busStopsCache_completeSnapshot (u : Upstream α) (times : Nat → Int)
    (sched : List Nat) :
    ∀ v, (runSys u (initSys α times) sched).busStopsCache = some v →
      CompleteScan u v :=
  (sysInv_run u _ sched (sysInv_init u times)).1

/-- Witness for C5's theorem: one caller against the all-pages-empty upstream caches
the empty snapshot, which is a completed scan. -/
theorem busStopsCache_completeSnapshot_witness : CompleteScan uEmpty ([] : List Nat) :=
  busStopsCache_completeSnapshot uEmpty (fun _ => 0) [0, 0] [] rfl

/-- A finishing run of the unbounded scan yields a complete snapshot. -/
theorem fetchAllBusStopsGo_done (u : Upstream α) :
    ∀ (fuel skip : Nat) (acc : List α) (k : Nat) (v : List α),
      skip = 500 * k → FullPages u k acc →
      fetchAllBusStopsGo u fuel skip acc = .done v → CompleteScan u v := by
  intro fuel
  induction fuel with
  | zero =>
    intro skip acc k v hsk hfp hrun
    exact ScanOutcome.noConfusion hrun
  | succ fuel ih =>
    intro skip acc k v hsk hfp hrun
    unfold fetchAllBusStopsGo at hrun
    cases hu : u skip with
    | fail status =>
      rw [hu] at hrun
      dsimp only at hrun
      exact ScanOutcome.noConfusion hrun
    | ok page =>
      rw [hu] at hrun
      dsimp only at hrun
      by_cases hz : page.length = 0
      · rw [if_pos hz] at hrun
        injection hrun with hrun
        subst hrun
        exact ⟨k, acc, hfp, Or.inl ⟨by rw [← hsk, hu, List.length_eq_zero.mp hz], rfl⟩⟩
      · rw [if_neg hz] at hrun
        by_cases hsh : page.length < 500
        · rw [if_pos hsh] at hrun
          injection hrun with hrun
          subst hrun
          refine ⟨k, acc, hfp, Or.inr ⟨page, by rw [← hsk, hu], ?_, hsh, rfl⟩⟩
          exact fun hnil => hz (by rw [hnil]; rfl)
        · rw [if_neg hsh] at hrun
          refine ih (skip + 500) (acc ++ page) (k + 1) v (by omega) ?_ hrun
          refine ⟨acc, page, hfp, by rw [← hsk, hu], ?_, hsh, rfl⟩
          exact fun hnil => hz (by rw [hnil]; rfl)

/-- An aborted run of the unbounded scan was stopped by a failing page request. -/
theorem fetchAllBusStopsGo_err (u : Upstream α) :
    ∀ (fuel skip : Nat) (acc : List α) (status k : Nat),
      skip = 500 * k →
      fetchAllBusStopsGo u fuel skip acc = .err status →
      ∃ j, u (500 * j) = .fail status := by
  intro fuel
  induction fuel with
  | zero =>
    intro skip acc status k hsk hrun
    exact ScanOutcome.noConfusion hrun
  | succ fuel ih =>
    intro skip acc status k hsk hrun
    unfold fetchAllBusStopsGo at hrun
    cases hu : u skip with
    | fail status' =>
      rw [hu] at hrun
      dsimp only at hrun
      injection hrun with hrun
      subst hrun
      exact ⟨k, by rw [← hsk, hu]⟩
    | ok page =>
      rw [hu] at hrun
      dsimp only at hrun
      by_cases hz : page.length = 0
      · rw [if_pos hz] at hrun
        exact ScanOutcome.noConfusion hrun
      · rw [if_neg hz] at hrun
        by_cases hsh : page.length < 500
        · rw [if_pos hsh] at hrun
          exact ScanOutcome.noConfusion hrun
        · rw [if_neg hsh] at hrun
          exact ih (skip + 500) (acc ++ page) status (k + 1) (by omega) hrun

/-- A successful bounded scan stopped on an empty page or on the offset bound; its
value is the concatenation of the non-empty pages before the stop. -/
theorem boundedScanGo_ok (u : Upstream α) (maxSkip : Nat) :
    ∀ (skip : Nat) (acc : List α) (k : Nat) (v : List α),
      skip = 500 * k → NonemptyPages u k acc →
      boundedScanGo u maxSkip skip acc = .ok v →
      ∃ j, NonemptyPages u j v ∧ (maxSkip ≤ 500 * j ∨ u (500 * j) = .ok []) := by
  intro skip acc
  induction skip, acc using boundedScanGo.induct u maxSkip with
  | case1 skip acc h status hu =>
    intro k v hsk hnp hrun
    unfold boundedScanGo at hrun
    rw [dif_pos h, hu] at hrun
    dsimp only at hrun
    exact Except.noConfusion hrun
  | case2 skip acc h page hu hz =>
    intro k v hsk hnp hrun
    unfold boundedScanGo at hrun
    rw [dif_pos h, hu] at hrun
    dsimp only at hrun
    rw [if_pos hz] at hrun
    injection hrun with hrun
    subst hrun
    exact ⟨k, hnp, Or.inr (by rw [← hsk, hu, List.length_eq_zero.mp hz])⟩
  | case3 skip acc h page hu hz ih =>
    intro k v hsk hnp hrun
    unfold boundedScanGo at hrun
    rw [dif_pos h, hu] at hrun
    dsimp only at hrun
    rw [if_neg hz] at hrun
    refine ih (k + 1) v (by omega) ?_ hrun
    refine ⟨acc, page, hnp, by rw [← hsk, hu], ?_, rfl⟩
    exact fun hnil => hz (by rw [hnil]; rfl)
  | case4 skip acc h =>
    intro k v hsk hnp hrun
    unfold boundedScanGo at hrun
    rw [dif_neg h] at hrun
    injection hrun with hrun
    subst hrun
    exact ⟨k, hnp, Or.inl (by omega)⟩

/-- An aborted bounded scan was stopped by a failing page request within the bound. -/
theorem boundedScanGo_err (u : Upstream α) (maxSkip : Nat) :
    ∀ (skip : Nat) (acc : List α) (status k : Nat),
      skip = 500 * k →
      boundedScanGo u maxSkip skip acc = .error status →
      ∃ j, 500 * j < maxSkip ∧ u (500 * j) = .fail status := by
  intro skip acc
  induction skip, acc using boundedScanGo.induct u maxSkip with
  | case1 skip acc h status' hu =>
    intro status k hsk hrun
    unfold boundedScanGo at hrun
    rw [dif_pos h, hu] at hrun
    dsimp only at hrun
    injection hrun with hrun
    subst hrun
    exact ⟨k, by omega, by rw [← hsk, hu]⟩
  | case2 skip acc h page hu hz =>
    intro status k hsk hrun
    unfold boundedScanGo at hrun
    rw [dif_pos h, hu] at hrun
    dsimp only at hrun
    rw [if_pos hz] at hrun
    exact Except.noConfusion hrun
  | case3 skip acc h page hu hz ih =>
    intro status k hsk hrun
    unfold boundedScanGo at hrun
    rw [dif_pos h, hu] at hrun
    dsimp only at hrun
    rw [if_neg hz] at hrun
    exact ih status (k + 1) (by omega) hrun
  | case4 skip acc h =>
    intro status k hsk hrun
    unfold boundedScanGo at hrun
    rw [dif_neg h] at hrun
    exact Except.noConfusion hrun

/-- An aborted `getBusRoutes` scan was stopped by a failing page request within the
bound. -/
theorem getBusRoutesScanGo_err (u : Upstream RouteRec) (svc : String) :
    ∀ (skip : Nat) (acc : List RouteRec) (status : Nat),
      getBusRoutesScanGo u svc skip acc = .error status →
      ∃ j, j < 5000 ∧ u j = .fail status := by
  intro skip acc
  induction skip, acc using getBusRoutesScanGo.induct u svc with
  | case1 skip acc h status' hu =>
    intro status hrun
    unfold getBusRoutesScanGo at hrun
    rw [dif_pos h, hu] at hrun
    dsimp only at hrun
    injection hrun with hrun
    subst hrun
    exact ⟨skip, h, hu⟩
  | case2 skip acc h page hu hz =>
    intro status hrun
    unfold getBusRoutesScanGo at hrun
    rw [dif_pos h, hu] at hrun
    dsimp only at hrun
    rw [if_pos hz] at hrun
    exact Except.noConfusion hrun
  | case3 skip acc h page hu hz sr ar hbrk =>
    intro status hrun
    unfold getBusRoutesScanGo at hrun
    rw [dif_pos h, hu] at hrun
    dsimp only at hrun
    rw [if_neg hz] at hrun
    simp only [if_pos hbrk] at hrun
    exact Except.noConfusion hrun
  | case4 skip acc h page hu hz sr ar hbrk ih =>
    intro status hrun
    unfold getBusRoutesScanGo at hrun
    rw [dif_pos h, hu] at hrun
    dsimp only at hrun
    rw [if_neg hz] at hrun
    simp only [if_neg hbrk] at hrun
    exact ih status hrun
  | case5 skip acc h =>
    intro status hrun
    unfold getBusRoutesScanGo at hrun
    rw [dif_neg h] at hrun
    exact Except.noConfusion hrun

/-- C2, counterexample: against an upstream whose offset-0 page holds one record
(fewer than the page size 500, and non-empty) and whose offset-500 request fails, the
claim predicts every refresh stops at the short page and succeeds with that record;
the bounded `searchBusStops` scan instead continues past the short page, issues the
offset-500 request and aborts with its status. -/
theorem searchBusStops_shortPage_noStop :
    searchBusStopsScan uShort = .error 503 ∧
    uShort 0 = .ok [42] ∧ ([42] : List Nat).length < 500 := by
  refine ⟨?_, rfl, by decide⟩
  simp [searchBusStopsScan, boundedScanGo, uShort]

/-- C2 (amended): pages are requested at offsets 0, 500, 1000, ... and appended to an
accumulator, and a failing page request aborts the whole refresh with the upstream
status and no partial result; but the stop conditions differ per variant: the
unbounded `fetchAllBusStops` stops exactly on an empty or short page (conjuncts 1 and
2); the bounded scans stop only on an empty page or on reaching the offset bound — a
short non-empty page does not stop them (conjuncts 3, 4 and 5); the `getBusRoutes`
scan additionally stops on the gap rule (conjunct 6 covers its aborts; the gap rule
itself is settled with C10). -/
theorem paginatedRefresh_stopConditions :
    (∀ (α : Type) (u : Upstream α) (fuel : Nat) (v : List α),
      fetchAllBusStops u fuel = .done v → CompleteScan u v) ∧
    (∀ (α : Type) (u : Upstream α) (fuel status : Nat),
      fetchAllBusStops u fuel = .err status → ∃ j, u (500 * j) = .fail status) ∧
    (∀ (α : Type) (u : Upstream α) (v : List α),
      searchBusStopsScan u = .ok v →
        ∃ j, NonemptyPages u j v ∧ (6000 ≤ 500 * j ∨ u (500 * j) = .ok [])) ∧
    (∀ (α : Type) (u : Upstream α) (status : Nat),
      searchBusStopsScan u = .error status →
        ∃ j, 500 * j < 6000 ∧ u (500 * j) = .fail status) ∧
    (∀ (α : Type) (u : Upstream α) (maxSkip skip : Nat) (acc page : List α),
      skip < maxSkip → u skip = .ok page → page.length ≠ 0 →
        boundedScanGo u maxSkip skip acc =
          boundedScanGo u maxSkip (skip + 500) (acc ++ page)) ∧
    (∀ (u : Upstream RouteRec) (svc : String) (status : Nat),
      getBusRoutesScan u svc = .error status → ∃ j, j < 5000 ∧ u j = .fail status) := by
  refine ⟨?_, ?_, ?_, ?_, ?_, ?_⟩
  · intro α u fuel v hrun
    exact fetchAllBusStopsGo_done u fuel 0 [] 0 v rfl rfl hrun
  · intro α u fuel status hrun
    exact fetchAllBusStopsGo_err u fuel 0 [] status 0 rfl hrun
  · intro α u v hrun
    exact boundedScanGo_ok u 6000 0 [] 0 v rfl rfl hrun
  · intro α u status hrun
    exact boundedScanGo_err u 6000 0 [] status 0 rfl hrun
  · intro α u maxSkip skip acc page h hu hz
    rw [boundedScanGo]
    rw [dif_pos h, hu]
    dsimp only
    rw [if_neg hz]
  · intro u svc status hrun
    exact getBusRoutesScanGo_err u svc 0 [] status hrun

/-- Witness for C2's theorem: a first-page failure aborts the unbounded refresh with
that status. -/
theorem paginatedRefresh_stopConditions_witness :
    ∃ j, uFail (500 * j) = .fail 500 :=
  paginatedRefresh_stopConditions.2.1 Nat uFail 1 500 rfl

end SgBusMcp
